import Mathlib

/-!
Shallow embedding of the coordinate-system reconciliation and bounds-validation
core of the `cets-empiar` repository.

Two revisions of the same logic exist in the source and both are embedded here:

* the validator revision, `src/cets_empiar/validation/validator_models/point_annotation.py`
  (pydantic objects, `hasattr` guards, missing attributes modelled as `Option` fields
  that are `none`);
* the thumbnail revision, `src/cets_empiar/thumbnails/thumbnail_image_utils.py`
  (plain dicts, direct key access; a missing key raises `KeyError`, modelled as the
  `fieldMissing` error).

Python floats are modelled as exact rationals (`ℚ`): the claims under study concern
which arithmetic is performed and which comparisons decide the control flow, not
floating-point rounding.  Python truthiness of strings (`""` is falsy), of integers
(`0` is falsy) and of `None` is modelled explicitly where the source relies on it.
-/

namespace CetsEmpiar

/-- A 3-component point, `(x, y, z)`. -/
abbrev Point3 := ℚ × ℚ × ℚ

/-- A coordinate-system record.  The source only ever reads the `name` field,
guarded by `hasattr(cs, 'name')` (validator) or `cs["name"]` (thumbnail); a record
whose name is absent is modelled with `name = none`. -/
structure CoordinateSystem where
  name : Option String
deriving DecidableEq, Repr

/-- A coordinate-transformation record; every field the source reads is optional
because both revisions guard (or crash) on missing fields. -/
structure CTrans where
  input : Option String
  output : Option String
  transformation_type : Option String
  scale : Option (List ℚ)
deriving DecidableEq, Repr

/-- A point-set-3D record as consumed by `validate_with_tomogram` and
`get_transformed_point_set_3D_coordinates`: the fields default to `[]` via
`annotation.coordinate_systems or []` / `annotation.get(..., [])`. -/
structure Anno where
  origin3D : Option (List Point3)
  coordinate_systems : Option (List CoordinateSystem)
  coordinate_transformations : Option (List CTrans)
deriving DecidableEq, Repr

/-- A tomogram record: integer voxel dimensions (optional, Python-falsy when `0`
or `None`) together with its coordinate systems and transformations. -/
structure Tomo where
  width : Option Int
  height : Option Int
  depth : Option Int
  coordinate_systems : Option (List CoordinateSystem)
  coordinate_transformations : Option (List CTrans)
deriving DecidableEq, Repr

/-- The failure modes of both revisions (each constructor corresponds to one
`raise` site or one uncaught `KeyError`; attribute/key lookup failures share the
`fieldMissing` constructor). -/
inductive RErr where
  | noCommonFrame
  | ambiguousFrame
  | noBridge
  | cannotDetermineType
  | unsupportedKind (ty : String)
  | fieldMissing (field : String)
  | indexError
  | missingOrigin
  | annoMissingCs
  | tomoMissingCs
  | missingCs
  | targetNotFound (n : String)
  | outOfBounds (shown : List (Nat × Point3)) (extra : Nat)
deriving DecidableEq, Repr

deriving instance DecidableEq for Except

/-- Python truthiness of an optional string: `None` and `""` are falsy
(`if not input_cs or not output_cs: continue`). -/
def strTruthy : Option String → Bool
  | none => false
  | some s => !(s == "")

/-- Python truthiness of an optional integer dimension: `None` and `0` are falsy
(`all([tomogram.width, tomogram.height, tomogram.depth])`). -/
def dimTruthy : Option Int → Bool
  | none => false
  | some n => !(n == 0)

/-! ## Validator revision (`point_annotation.py`) -/

/-- Embeds `_get_cs_names`: `{cs.name for cs in coordinate_systems if hasattr(cs, 'name')}` —
the set of names of the records that carry one.  Python sets are modelled as
duplicate-free lists (iteration order is unspecified in Python; here it is
first-occurrence order, which only matters when the set is a singleton). -/
def getCsNames (l : List CoordinateSystem) : List String :=
  (l.filterMap (·.name)).dedup

/-- Embeds `anno_cs_names & tomo_cs_names`, the set intersection of the two name sets. -/
def commonCsNames (annoCs tomoCs : List CoordinateSystem) : List String :=
  getCsNames annoCs ∩ getCsNames tomoCs

/-- Embeds `_check_coordinate_systems_without_transformation`: require exactly one common
coordinate-system name and return it; `list(common_cs)[0]` is the unique element. -/
def checkCsWithoutTrans (annoCs tomoCs : List CoordinateSystem) : Except RErr String :=
  match commonCsNames annoCs tomoCs with
  | [] => .error .noCommonFrame
  | [n] => .ok n
  | _ :: _ :: _ => .error .ambiguousFrame

/-- The loop body of `_check_coordinate_system_with_transformation`: scan the
transformations in declaration order, skip those whose `input`/`output` is missing
or falsy, and return the first one whose endpoints straddle the two name sets,
together with `output_cs if input_cs in tomo_cs_names else input_cs`. -/
def findBridge (a t : List String) : List CTrans → Except RErr (CTrans × String)
  | [] => .error .noBridge
  | tr :: rest =>
    match tr.input, tr.output with
    | some i, some o =>
      if i = "" ∨ o = "" then findBridge a t rest
      else if (i ∈ t ∧ o ∈ a) ∨ (i ∈ a ∧ o ∈ t) then
        .ok (tr, if i ∈ t then o else i)
      else findBridge a t rest
    | _, _ => findBridge a t rest

/-- Embeds `_check_coordinate_system_with_transformation`. -/
def checkCsWithTrans (transs : List CTrans) (annoCs tomoCs : List CoordinateSystem) :
    Except RErr (CTrans × String) :=
  findBridge (getCsNames annoCs) (getCsNames tomoCs) transs

/-- The acceptance condition of one iteration of the `findBridge` loop, as a
predicate: `input`/`output` both present and truthy, and the endpoints straddle
the two name sets in either direction. -/
def bridges (a t : List String) (tr : CTrans) : Bool :=
  match tr.input, tr.output with
  | some i, some o =>
    if i = "" ∨ o = "" then false
    else decide ((i ∈ t ∧ o ∈ a) ∨ (i ∈ a ∧ o ∈ t))
  | _, _ => false

/-- The frame name the loop returns for an accepted transformation:
`output_cs if input_cs in tomo_cs_names else input_cs`. -/
def bridgeTarget (t : List String) (tr : CTrans) : String :=
  match tr.input, tr.output with
  | some i, some o => if i ∈ t then o else i
  | _, _ => ""

/-- Elementwise scaling by the first three entries of `scale`
(`[x * scale_factors[0], y * scale_factors[1], z * scale_factors[2]]`);
out-of-range indexing is Python's `IndexError`. -/
def scaleCoords (coords : List Point3) (s : List ℚ) : Except RErr (List Point3) :=
  match s.get? 0, s.get? 1, s.get? 2 with
  | some s0, some s1, some s2 =>
    .ok (coords.map fun p => (p.1 * s0, p.2.1 * s1, p.2.2 * s2))
  | _, _, _ => .error .indexError

/-- Embeds `_apply_coordinate_transformation`: the type is `transformation_type` when that
attribute exists, else `'scale'` when a `scale` attribute exists, else an error;
only `"scale"` is implemented. -/
def applyCoordTrans (coords : List Point3) (tr : CTrans) : Except RErr (List Point3) :=
  match tr.transformation_type with
  | some ty =>
    if ty = "scale" then
      match tr.scale with
      | some s => scaleCoords coords s
      | none => .error (.fieldMissing "scale")
    else .error (.unsupportedKind ty)
  | none =>
    match tr.scale with
    | some s => scaleCoords coords s
    | none => .error .cannotDetermineType

/-- Embeds `_get_transformed_coordinates`: Case A (no transformations) passes the points
through and resolves a unique shared frame; Case B selects a bridging
transformation and applies it. -/
def getTransformedCoordinates (coords : List Point3) (transs : List CTrans)
    (annoCs tomoCs : List CoordinateSystem) : Except RErr (List Point3 × String) :=
  if transs.isEmpty then
    match checkCsWithoutTrans annoCs tomoCs with
    | .error e => .error e
    | .ok n => .ok (coords, n)
  else
    match checkCsWithTrans transs annoCs tomoCs with
    | .error e => .error e
    | .ok (tr, target) =>
      match applyCoordTrans coords tr with
      | .error e => .error e
      | .ok newCoords => .ok (newCoords, target)

/-- Embeds `_check_points_within_bounds`: collect `(index, point)` for every point that is
not inside all three closed intervals (`x_bounds[0] <= x <= x_bounds[1]` and so on). -/
def checkPointsWithinBounds (coords : List Point3)
    (bounds : (ℚ × ℚ) × (ℚ × ℚ) × (ℚ × ℚ)) : List (Nat × Point3) :=
  coords.enum.filter fun ip =>
    !(bounds.1.1 ≤ ip.2.1 ∧ ip.2.1 ≤ bounds.1.2 ∧
      bounds.2.1.1 ≤ ip.2.2.1 ∧ ip.2.2.1 ≤ bounds.2.1.2 ∧
      bounds.2.2.1 ≤ ip.2.2.2 ∧ ip.2.2.2 ≤ bounds.2.2.2)

/-! ## Validator revision, `validate_with_tomogram` pipeline -/

/-- Whether `sub` occurs at the head of `s`. -/
def subAtHead : List Char → List Char → Bool
  | [], _ => true
  | _ :: _, [] => false
  | a :: as, b :: bs => a == b && subAtHead as bs

/-- Whether `sub` occurs somewhere in `s` (Python's `sub in s` on strings). -/
def containsSub (s sub : List Char) : Bool :=
  match s with
  | [] => sub.isEmpty
  | _ :: rest => subAtHead sub s || containsSub rest sub

/-- Embeds `'voxel' in target_cs_name.lower()`. -/
def containsVoxel (s : String) : Bool :=
  containsSub (s.data.map Char.toLower) "voxel".data

/-- A tomogram dimension as a rational (only read after the truthiness check). -/
def dimQ (d : Option Int) : ℚ :=
  ((d.getD 0 : Int) : ℚ)

/-- Embeds `all([tomogram.width, tomogram.height, tomogram.depth])`. -/
def dimsAllTruthy (t : Tomo) : Bool :=
  dimTruthy t.width && dimTruthy t.height && dimTruthy t.depth

/-- The final stage of `validate_with_tomogram` (lines 208–217): run the bounds
check and, when violations exist, fail with a report that lists `out_of_bounds[:5]`
and, when there are more than 5 violations, the count of the remainder. -/
def finishBounds (a : Anno) (tcoords : List Point3)
    (bounds : (ℚ × ℚ) × (ℚ × ℚ) × (ℚ × ℚ)) : Except RErr Anno :=
  let oob := checkPointsWithinBounds tcoords bounds
  if oob.isEmpty then .ok a
  else .error (.outOfBounds (oob.take 5) (if 5 < oob.length then oob.length - 5 else 0))

/-- The bounds-determination stage of `validate_with_tomogram` (lines 172–217):
a `'voxel'` substring in the target name selects the raw integer dimensions as
bounds (skipping the check when a dimension is falsy); any other name is treated
as physical and requires a tomogram transformation with `output == target_cs_name`
and a `scale` attribute, otherwise the check is skipped with a warning. -/
def boundsStage (a : Anno) (t : Tomo) (target : String) (tcoords : List Point3) :
    Except RErr Anno :=
  if containsVoxel target then
    if dimsAllTruthy t then
      finishBounds a tcoords
        ((0, dimQ t.width), (0, dimQ t.height), (0, dimQ t.depth))
    else .ok a
  else
    match (t.coordinate_transformations.getD []).find?
        (fun tr => tr.output == some target && tr.scale.isSome) with
    | some tr =>
      if dimsAllTruthy t then
        match tr.scale with
        | some s =>
          match s.get? 0, s.get? 1, s.get? 2 with
          | some s0, some s1, some s2 =>
            finishBounds a tcoords
              ((0, dimQ t.width * s0), (0, dimQ t.height * s1), (0, dimQ t.depth * s2))
          | _, _, _ => .error .indexError
        | none => .error (.fieldMissing "scale")
      else .ok a
    | none => .ok a

/-- Embeds `validate_with_tomogram` (the record is taken as already model-validated;
`cls.model_validate` belongs to the external pydantic layer). -/
def validateWithTomogram (a : Anno) (t : Tomo) : Except RErr Anno :=
  let annoCs := a.coordinate_systems.getD []
  let tomoCs := t.coordinate_systems.getD []
  if annoCs.isEmpty then .error .annoMissingCs
  else if tomoCs.isEmpty then .error .tomoMissingCs
  else
    let coords := a.origin3D.getD []
    if coords.isEmpty then .error .missingOrigin
    else
      match getTransformedCoordinates coords (a.coordinate_transformations.getD [])
          annoCs tomoCs with
      | .error e => .error e
      | .ok (tcoords, target) =>
        match tomoCs.find? (fun cs => cs.name == some target) with
        | none => .error (.targetNotFound target)
        | some _ => boundsStage a t target tcoords

/-! ## Thumbnail revision (`thumbnail_image_utils.py`) -/

/-- Embeds `{cs["name"] for cs in coordinate_systems}` on dict-shaped records: a missing
key raises `KeyError`. -/
def dGetCsNames : List CoordinateSystem → Except RErr (List String)
  | [] => .ok []
  | cs :: rest =>
    match cs.name with
    | none => .error (.fieldMissing "name")
    | some n =>
      match dGetCsNames rest with
      | .error e => .error e
      | .ok ns => .ok (if n ∈ ns then ns else n :: ns)

/-- Embeds `check_coordinate_systems_without_transformation`: returns nothing on success. -/
def tCheckCsWithoutTrans (annoCs tomoCs : List CoordinateSystem) : Except RErr Unit :=
  match dGetCsNames annoCs, dGetCsNames tomoCs with
  | .error e, _ => .error e
  | .ok _, .error e => .error e
  | .ok a, .ok t =>
    match a ∩ t with
    | [] => .error .noCommonFrame
    | [_] => .ok ()
    | _ :: _ :: _ => .error .ambiguousFrame

/-- The loop of `check_coordinate_system_with_transformation`: direct key access
(`transformation["input"]`), no falsy skip, same straddle condition, returns only
the transformation. -/
def tFindBridge (a t : List String) : List CTrans → Except RErr CTrans
  | [] => .error .noBridge
  | tr :: rest =>
    match tr.input with
    | none => .error (.fieldMissing "input")
    | some i =>
      match tr.output with
      | none => .error (.fieldMissing "output")
      | some o =>
        if (i ∈ t ∧ o ∈ a) ∨ (i ∈ a ∧ o ∈ t) then .ok tr
        else tFindBridge a t rest

/-- Embeds `check_coordinate_system_with_transformation`. -/
def tCheckCsWithTrans (transs : List CTrans) (annoCs tomoCs : List CoordinateSystem) :
    Except RErr CTrans :=
  match dGetCsNames annoCs, dGetCsNames tomoCs with
  | .error e, _ => .error e
  | .ok _, .error e => .error e
  | .ok a, .ok t => tFindBridge a t transs

/-- Embeds `apply_coordinate_transformation`: `transformation["transformation_type"]`
must exist and be `"scale"`. -/
def tApplyCoordTrans (coords : List Point3) (tr : CTrans) : Except RErr (List Point3) :=
  match tr.transformation_type with
  | none => .error (.fieldMissing "transformation_type")
  | some ty =>
    if ty = "scale" then
      match tr.scale with
      | some s => scaleCoords coords s
      | none => .error (.fieldMissing "scale")
    else .error (.unsupportedKind ty)

/-- Embeds `get_transformed_point_set_3D_coordinates`. -/
def tGetTransformed (a : Anno) (t : Tomo) : Except RErr (List Point3) :=
  let coords := a.origin3D.getD []
  if coords.isEmpty then .error .missingOrigin
  else
    let transs := a.coordinate_transformations.getD []
    let annoCs := a.coordinate_systems.getD []
    let tomoCs := t.coordinate_systems.getD []
    if annoCs.isEmpty || tomoCs.isEmpty then .error .missingCs
    else if transs.isEmpty then
      match tCheckCsWithoutTrans annoCs tomoCs with
      | .error e => .error e
      | .ok _ => .ok coords
    else
      match tCheckCsWithTrans transs annoCs tomoCs with
      | .error e => .error e
      | .ok tr => tApplyCoordTrans coords tr

/-! ## Theorems -/

/-- Membership in the violation list of `_check_points_within_bounds`: the pair
`(i, p)` is reported exactly when `p` is the `i`-th input point and `p` is not
inside all three closed intervals. -/
theorem mem_checkPointsWithinBounds (coords : List Point3)
    (bounds : (ℚ × ℚ) × (ℚ × ℚ) × (ℚ × ℚ)) (i : ℕ) (p : Point3) :
    (i, p) ∈ checkPointsWithinBounds coords bounds ↔
      coords[i]? = some p ∧
      ¬(bounds.1.1 ≤ p.1 ∧ p.1 ≤ bounds.1.2 ∧
        bounds.2.1.1 ≤ p.2.1 ∧ p.2.1 ≤ bounds.2.1.2 ∧
        bounds.2.2.1 ≤ p.2.2 ∧ p.2.2 ≤ bounds.2.2.2) := by
  unfold checkPointsWithinBounds
  simp only [List.mem_filter, List.mk_mem_enum_iff_getElem?, Bool.not_eq_true',
    decide_eq_false_iff_not]

/-- C2 (counterexample): for bounds `(0, 10)` on each axis, the point `(10, 0, 0)`
sits exactly at the upper bound and the code reports no violation, contradicting
the claimed exclusive upper bound; `(0, 0, 0)` is likewise not reported. -/
theorem c2_counterexample :
    checkPointsWithinBounds [((10 : ℚ), 0, 0)] ((0, 10), (0, 10), (0, 10)) = [] ∧
    checkPointsWithinBounds [((0 : ℚ), 0, 0)] ((0, 10), (0, 10), (0, 10)) = [] := by
  constructor <;> rfl

/-- C2 (amended): the bounds check uses a closed interval per axis: a point is
reported as a violation exactly when some coordinate is strictly below `0` or
strictly above its bound, so a point with every coordinate in `[0, bound]` —
including one exactly at the bound — is not a violation. -/
theorem c2_bounds_closed_interval (coords : List Point3) (q1 q2 q3 : ℚ)
    (i : ℕ) (p : Point3) :
    (i, p) ∈ checkPointsWithinBounds coords ((0, q1), (0, q2), (0, q3)) ↔
      coords[i]? = some p ∧
      ¬(0 ≤ p.1 ∧ p.1 ≤ q1 ∧ 0 ≤ p.2.1 ∧ p.2.1 ≤ q2 ∧ 0 ≤ p.2.2 ∧ p.2.2 ≤ q3) :=
  mem_checkPointsWithinBounds coords ((0, q1), (0, q2), (0, q3)) i p

/-- C2 (amended, witness): the point `(11, 0, 0)` with bound `10` on each axis is
reported at index `0`. -/
theorem c2_bounds_closed_interval_witness :
    ((0 : ℕ), ((11 : ℚ), 0, 0)) ∈
      checkPointsWithinBounds [((11 : ℚ), 0, 0)] ((0, 10), (0, 10), (0, 10)) :=
  (c2_bounds_closed_interval [((11 : ℚ), 0, 0)] 10 10 10 0 (11, 0, 0)).mpr
    ⟨rfl, by norm_num⟩

/-- C7: every reported violation carries the point's index in the input sequence,
and when violations exist the validation error reports the first (at most) 5
`(index, point)` pairs plus the count of the remaining violations. -/
theorem c7_violation_report (a : Anno) (tcoords : List Point3)
    (bounds : (ℚ × ℚ) × (ℚ × ℚ) × (ℚ × ℚ))
    (h : checkPointsWithinBounds tcoords bounds ≠ []) :
    (∀ i p, (i, p) ∈ checkPointsWithinBounds tcoords bounds → tcoords[i]? = some p) ∧
    ∃ extra,
      finishBounds a tcoords bounds =
        .error (.outOfBounds ((checkPointsWithinBounds tcoords bounds).take 5) extra) ∧
      ((checkPointsWithinBounds tcoords bounds).take 5).length ≤ 5 ∧
      extra = (checkPointsWithinBounds tcoords bounds).length
              - ((checkPointsWithinBounds tcoords bounds).take 5).length := by
  refine ⟨fun i p hip => ((mem_checkPointsWithinBounds tcoords bounds i p).mp hip).1, ?_⟩
  refine ⟨if 5 < (checkPointsWithinBounds tcoords bounds).length
    then (checkPointsWithinBounds tcoords bounds).length - 5 else 0, ?_, ?_, ?_⟩
  · unfold finishBounds
    rw [if_neg (by simpa [List.isEmpty_iff] using h)]
  · simp [Nat.min_le_left]
  · rw [List.length_take]
    split_ifs with h5 <;> omega

/-- C7 (witness): a concrete run with 7 violations reports the first 5 pairs and
a remainder count of 2. -/
theorem c7_violation_report_witness :
    (∀ i p, (i, p) ∈ checkPointsWithinBounds
        [((11 : ℚ), 0, 0), (12, 0, 0), (13, 0, 0), (14, 0, 0), (15, 0, 0), (16, 0, 0), (17, 0, 0)]
        ((0, 10), (0, 10), (0, 10)) →
      ([((11 : ℚ), 0, 0), (12, 0, 0), (13, 0, 0), (14, 0, 0), (15, 0, 0), (16, 0, 0), (17, 0, 0)] :
        List Point3)[i]? = some p) ∧
    ∃ extra,
      finishBounds ⟨none, none, none⟩
          [((11 : ℚ), 0, 0), (12, 0, 0), (13, 0, 0), (14, 0, 0), (15, 0, 0), (16, 0, 0), (17, 0, 0)]
          ((0, 10), (0, 10), (0, 10)) =
        .error (.outOfBounds ((checkPointsWithinBounds
          [((11 : ℚ), 0, 0), (12, 0, 0), (13, 0, 0), (14, 0, 0), (15, 0, 0), (16, 0, 0), (17, 0, 0)]
          ((0, 10), (0, 10), (0, 10))).take 5) extra) ∧
      ((checkPointsWithinBounds
          [((11 : ℚ), 0, 0), (12, 0, 0), (13, 0, 0), (14, 0, 0), (15, 0, 0), (16, 0, 0), (17, 0, 0)]
          ((0, 10), (0, 10), (0, 10))).take 5).length ≤ 5 ∧
      extra = (checkPointsWithinBounds
          [((11 : ℚ), 0, 0), (12, 0, 0), (13, 0, 0), (14, 0, 0), (15, 0, 0), (16, 0, 0), (17, 0, 0)]
          ((0, 10), (0, 10), (0, 10))).length
        - ((checkPointsWithinBounds
          [((11 : ℚ), 0, 0), (12, 0, 0), (13, 0, 0), (14, 0, 0), (15, 0, 0), (16, 0, 0), (17, 0, 0)]
          ((0, 10), (0, 10), (0, 10))).take 5).length :=
  c7_violation_report ⟨none, none, none⟩
    [((11 : ℚ), 0, 0), (12, 0, 0), (13, 0, 0), (14, 0, 0), (15, 0, 0), (16, 0, 0), (17, 0, 0)]
    ((0, 10), (0, 10), (0, 10)) (by decide)

/-- A duplicate-free list whose members are exactly `n` is `[n]`. -/
theorem nodup_eq_singleton {α : Type} {l : List α} {n : α} (hd : l.Nodup)
    (hm : ∀ x, x ∈ l ↔ x = n) : l = [n] := by
  cases l with
  | nil => exact absurd ((hm n).mpr rfl) (by simp)
  | cons a l' =>
    have ha : a = n := (hm a).mp (by simp)
    subst ha
    have h' : l' = [] := by
      cases l' with
      | nil => rfl
      | cons b l'' =>
        have hb : b = a := (hm b).mp (by simp)
        subst hb
        simp at hd
    simp [h']

/-- The computed common-name list is duplicate-free. -/
theorem commonCsNames_nodup (annoCs tomoCs : List CoordinateSystem) :
    (commonCsNames annoCs tomoCs).Nodup :=
  List.Nodup.inter _ (List.nodup_dedup _)

/-- The computed common-name list carries exactly the intersection of the two
name sets. -/
theorem mem_commonCsNames (annoCs tomoCs : List CoordinateSystem) (x : String) :
    x ∈ commonCsNames annoCs tomoCs ↔
      x ∈ getCsNames annoCs ∧ x ∈ getCsNames tomoCs := by
  simp [commonCsNames, List.mem_inter_iff]

/-- C4: applying a selected scale transformation with factors `(sx, sy, sz)`
(in either revision) yields a same-length point list whose `i`-th point is the
`i`-th input point multiplied componentwise; any other transformation kind fails
with the unsupported-kind error in both revisions. -/
theorem c4_scale_correct (coords : List Point3) (tr : CTrans) (sx sy sz : ℚ)
    (ty : String) :
    (tr.transformation_type = some "scale" → tr.scale = some [sx, sy, sz] →
      ∃ out, applyCoordTrans coords tr = .ok out ∧
        tApplyCoordTrans coords tr = .ok out ∧
        out.length = coords.length ∧
        ∀ (i : ℕ) (x y z : ℚ), coords[i]? = some (x, y, z) →
          out[i]? = some (x * sx, y * sy, z * sz)) ∧
    (tr.transformation_type = some ty → ty ≠ "scale" →
      applyCoordTrans coords tr = .error (.unsupportedKind ty) ∧
      tApplyCoordTrans coords tr = .error (.unsupportedKind ty)) := by
  constructor
  · intro hty hsc
    refine ⟨coords.map fun p => (p.1 * sx, p.2.1 * sy, p.2.2 * sz), ?_, ?_, ?_, ?_⟩
    · simp [applyCoordTrans, hty, hsc, scaleCoords]
    · simp [tApplyCoordTrans, hty, hsc, scaleCoords]
    · simp
    · intro i x y z hi
      simp [List.getElem?_map, hi]
  · intro hty hne
    constructor
    · simp [applyCoordTrans, hty, hne]
    · simp [tApplyCoordTrans, hty, hne]

/-- C4 (witness): concrete scale and non-scale transformations. -/
theorem c4_scale_correct_witness :
    (∃ out, applyCoordTrans [((1 : ℚ), 2, 3)]
        ⟨some "v", some "p", some "scale", some [2, 3, 4]⟩ = .ok out ∧
      tApplyCoordTrans [((1 : ℚ), 2, 3)]
        ⟨some "v", some "p", some "scale", some [2, 3, 4]⟩ = .ok out ∧
      out.length = ([((1 : ℚ), 2, 3)] : List Point3).length ∧
      ∀ (i : ℕ) (x y z : ℚ), (([((1 : ℚ), 2, 3)] : List Point3))[i]? = some (x, y, z) →
        out[i]? = some (x * 2, y * 3, z * 4)) ∧
    (applyCoordTrans [((1 : ℚ), 2, 3)]
        ⟨some "v", some "p", some "affine", some [2, 3, 4]⟩ =
      .error (.unsupportedKind "affine") ∧
     tApplyCoordTrans [((1 : ℚ), 2, 3)]
        ⟨some "v", some "p", some "affine", some [2, 3, 4]⟩ =
      .error (.unsupportedKind "affine")) :=
  ⟨(c4_scale_correct [((1 : ℚ), 2, 3)]
      ⟨some "v", some "p", some "scale", some [2, 3, 4]⟩ 2 3 4 "scale").1 rfl rfl,
   (c4_scale_correct [((1 : ℚ), 2, 3)]
      ⟨some "v", some "p", some "affine", some [2, 3, 4]⟩ 2 3 4 "affine").2 rfl
      (by decide)⟩

/-- C5: with no declared transformations and exactly one shared coordinate-system
name `n`, the reconciliation returns the input points unchanged together with `n`. -/
theorem c5_caseA_identity (coords : List Point3) (annoCs tomoCs : List CoordinateSystem)
    (n : String)
    (h : (getCsNames annoCs).toFinset ∩ (getCsNames tomoCs).toFinset = {n})
    (hne : coords ≠ []) :
    getTransformedCoordinates coords [] annoCs tomoCs = .ok (coords, n) := by
  have hmem : ∀ x, x ∈ commonCsNames annoCs tomoCs ↔ x = n := by
    intro x
    have hx := Finset.ext_iff.mp h x
    simpa [mem_commonCsNames, List.mem_toFinset] using hx
  have hcomm : commonCsNames annoCs tomoCs = [n] :=
    nodup_eq_singleton (commonCsNames_nodup annoCs tomoCs) hmem
  simp [getTransformedCoordinates, checkCsWithoutTrans, hcomm]

/-- C5 (witness): one shared frame `"A"`, points pass through unchanged. -/
theorem c5_caseA_identity_witness :
    getTransformedCoordinates [((1 : ℚ), 2, 3), (4, 5, 6)] []
      [⟨some "A"⟩, ⟨some "B"⟩] [⟨some "A"⟩, ⟨some "C"⟩] =
      .ok ([((1 : ℚ), 2, 3), (4, 5, 6)], "A") :=
  c5_caseA_identity [((1 : ℚ), 2, 3), (4, 5, 6)] [⟨some "A"⟩, ⟨some "B"⟩]
    [⟨some "A"⟩, ⟨some "C"⟩] "A" (by decide) (by decide)

/-- C6: with no declared transformations, the reconciliation fails exactly when
the intersection of the two name sets does not have exactly one element, with
`noCommonFrame` on an empty intersection and `ambiguousFrame` on two or more
common names. -/
theorem c6_caseA_taxonomy (annoCs tomoCs : List CoordinateSystem)
    (hA : annoCs ≠ []) (hT : tomoCs ≠ []) :
    ((∃ e, checkCsWithoutTrans annoCs tomoCs = .error e) ↔
        ((getCsNames annoCs).toFinset ∩ (getCsNames tomoCs).toFinset).card ≠ 1) ∧
    (((getCsNames annoCs).toFinset ∩ (getCsNames tomoCs).toFinset) = ∅ →
        checkCsWithoutTrans annoCs tomoCs = .error .noCommonFrame) ∧
    (1 < ((getCsNames annoCs).toFinset ∩ (getCsNames tomoCs).toFinset).card →
        checkCsWithoutTrans annoCs tomoCs = .error .ambiguousFrame) := by
  have hsub : (commonCsNames annoCs tomoCs).toFinset =
      (getCsNames annoCs).toFinset ∩ (getCsNames tomoCs).toFinset := by
    ext x
    simp [mem_commonCsNames, List.mem_toFinset]
  have hcard : ((getCsNames annoCs).toFinset ∩ (getCsNames tomoCs).toFinset).card =
      (commonCsNames annoCs tomoCs).length := by
    rw [← hsub, List.toFinset_card_of_nodup (commonCsNames_nodup annoCs tomoCs)]
  rw [hcard]
  have hempty : ((getCsNames annoCs).toFinset ∩ (getCsNames tomoCs).toFinset) = ∅ →
      (commonCsNames annoCs tomoCs).length = 0 := by
    intro h0
    have := hcard
    rw [h0] at this
    simpa using this.symm
  cases hc : commonCsNames annoCs tomoCs with
  | nil =>
    refine ⟨?_, ?_, ?_⟩
    · simp [checkCsWithoutTrans, hc]
    · intro _; simp [checkCsWithoutTrans, hc]
    · intro hlt; simp at hlt
  | cons a l' =>
    cases l' with
    | nil =>
      refine ⟨?_, ?_, ?_⟩
      · simp [checkCsWithoutTrans, hc]
      · intro h0
        have := hempty h0
        rw [hc] at this
        simp at this
      · intro hlt; simp at hlt
    | cons b l'' =>
      refine ⟨?_, ?_, ?_⟩
      · constructor
        · intro _; simp
        · intro _; exact ⟨.ambiguousFrame, by simp [checkCsWithoutTrans, hc]⟩
      · intro h0
        have := hempty h0
        rw [hc] at this
        simp at this
      · intro _; simp [checkCsWithoutTrans, hc]

/-- C6 (witness): concrete empty and two-element intersections fail with the
respective errors; a singleton intersection succeeds. -/
theorem c6_caseA_taxonomy_witness :
    checkCsWithoutTrans [⟨some "A"⟩] [⟨some "B"⟩] = .error .noCommonFrame ∧
    checkCsWithoutTrans [⟨some "A"⟩, ⟨some "B"⟩] [⟨some "A"⟩, ⟨some "B"⟩] =
      .error .ambiguousFrame :=
  ⟨(c6_caseA_taxonomy [⟨some "A"⟩] [⟨some "B"⟩] (by decide) (by decide)).2.1 (by decide),
   (c6_caseA_taxonomy [⟨some "A"⟩, ⟨some "B"⟩] [⟨some "A"⟩, ⟨some "B"⟩]
      (by decide) (by decide)).2.2 (by decide)⟩

/-- One step of the `findBridge` loop, phrased with `bridges`/`bridgeTarget`. -/
theorem findBridge_cons (a t : List String) (hd : CTrans) (rest : List CTrans) :
    findBridge a t (hd :: rest) =
      if bridges a t hd then .ok (hd, bridgeTarget t hd)
      else findBridge a t rest := by
  rcases hi : hd.input with _ | i <;> rcases ho : hd.output with _ | o <;>
    simp only [findBridge, bridges, bridgeTarget, hi, ho] <;> split_ifs <;> simp_all

/-- The loop `findBridge` returns `(tr, target)` exactly when `tr` is the first
transformation accepted by `bridges` and `target` is its selected endpoint. -/
theorem findBridge_ok_iff (a t : List String) (l : List CTrans) (tr : CTrans)
    (target : String) :
    findBridge a t l = .ok (tr, target) ↔
      ∃ pre post, l = pre ++ tr :: post ∧
        (∀ tr' ∈ pre, bridges a t tr' = false) ∧
        bridges a t tr = true ∧ target = bridgeTarget t tr := by
  induction l with
  | nil => simp [findBridge]
  | cons hd rest ih =>
    rw [findBridge_cons]
    by_cases hb : bridges a t hd
    · rw [if_pos hb]
      constructor
      · intro h
        obtain ⟨h1, h2⟩ : hd = tr ∧ bridgeTarget t hd = target := by
          have := Except.ok.inj h
          exact ⟨congrArg Prod.fst this, congrArg Prod.snd this⟩
        subst h1
        exact ⟨[], rest, rfl, by simp, hb, h2.symm⟩
      · rintro ⟨pre, post, heq, hpre, htr, htgt⟩
        cases pre with
        | nil =>
          obtain ⟨h1, h2⟩ : hd = tr ∧ rest = post := by
            simpa using heq
          subst h1
          rw [htgt]
        | cons p pre' =>
          obtain ⟨h1, _⟩ : hd = p ∧ rest = pre' ++ tr :: post := by simpa using heq
          exact absurd (h1 ▸ hpre p (by simp)) (by simp [hb])
    · rw [if_neg hb, ih]
      rw [Bool.not_eq_true] at hb
      constructor
      · rintro ⟨pre, post, heq, hpre, htr, htgt⟩
        refine ⟨hd :: pre, post, by rw [heq, List.cons_append], ?_, htr, htgt⟩
        intro x hx
        rcases List.mem_cons.mp hx with rfl | hx'
        · exact hb
        · exact hpre x hx'
      · rintro ⟨pre, post, heq, hpre, htr, htgt⟩
        cases pre with
        | nil =>
          obtain ⟨h1, _⟩ : hd = tr ∧ rest = post := by simpa using heq
          exact absurd (h1 ▸ htr) (by simp [hb])
        | cons p pre' =>
          obtain ⟨h1, h2⟩ : hd = p ∧ rest = pre' ++ tr :: post := by simpa using heq
          exact ⟨pre', post, h2, fun x hx => hpre x (by simp [hx]), htr, htgt⟩

/-- An accepted transformation of the loop, unpacked into its endpoints. -/
theorem bridges_eq_true_iff (a t : List String) (tr : CTrans) :
    bridges a t tr = true ↔
      ∃ i o, tr.input = some i ∧ tr.output = some o ∧ i ≠ "" ∧ o ≠ "" ∧
        ((i ∈ t ∧ o ∈ a) ∨ (i ∈ a ∧ o ∈ t)) := by
  rcases hi : tr.input with _ | i <;> rcases ho : tr.output with _ | o <;>
    simp only [bridges, hi, ho] <;> simp_all <;> tauto

/-- C1 (counterexample): annotation frame set `{"A"}`, tomogram frame set `{"T"}`,
and one transformation `input = "T"`, `output = "A"`: the loop accepts it but
returns target `"A"`, which is in the annotation's set and not in the
tomogram's (the volume's) set as the claim requires. -/
theorem c1_counterexample :
    checkCsWithTrans [⟨some "T", some "A", some "scale", some [2, 2, 2]⟩]
        [⟨some "A"⟩] [⟨some "T"⟩] =
      .ok (⟨some "T", some "A", some "scale", some [2, 2, 2]⟩, "A") ∧
    "A" ∉ getCsNames [(⟨some "T"⟩ : CoordinateSystem)] ∧
    "A" ∈ getCsNames [(⟨some "A"⟩ : CoordinateSystem)] :=
  ⟨rfl, by decide, by decide⟩

/-- C1 (amended): the loop scans the transformations in declaration order, skips
those with a missing or empty endpoint, accepts the first whose endpoints
straddle the two name sets in either direction, and returns as target frame the
`output` endpoint when the `input` endpoint lies in the tomogram's name set and
the `input` endpoint otherwise (not necessarily the endpoint in the volume's
set). -/
theorem c1_bridge_selection (transs : List CTrans)
    (annoCs tomoCs : List CoordinateSystem) (tr : CTrans) (target : String) :
    checkCsWithTrans transs annoCs tomoCs = .ok (tr, target) ↔
      ∃ pre post i o,
        transs = pre ++ tr :: post ∧
        (∀ tr' ∈ pre, bridges (getCsNames annoCs) (getCsNames tomoCs) tr' = false) ∧
        tr.input = some i ∧ tr.output = some o ∧ i ≠ "" ∧ o ≠ "" ∧
        ((i ∈ getCsNames tomoCs ∧ o ∈ getCsNames annoCs) ∨
         (i ∈ getCsNames annoCs ∧ o ∈ getCsNames tomoCs)) ∧
        target = (if i ∈ getCsNames tomoCs then o else i) := by
  rw [checkCsWithTrans, findBridge_ok_iff]
  constructor
  · rintro ⟨pre, post, heq, hpre, htr, htgt⟩
    obtain ⟨i, o, hi, ho, hine, hone, hst⟩ :=
      (bridges_eq_true_iff _ _ tr).mp htr
    refine ⟨pre, post, i, o, heq, hpre, hi, ho, hine, hone, hst, ?_⟩
    rw [htgt, bridgeTarget, hi, ho]
  · rintro ⟨pre, post, i, o, heq, hpre, hi, ho, hine, hone, hst, htgt⟩
    refine ⟨pre, post, heq, hpre, ?_, ?_⟩
    · exact (bridges_eq_true_iff _ _ tr).mpr ⟨i, o, hi, ho, hine, hone, hst⟩
    · rw [htgt, bridgeTarget, hi, ho]

/-- C1 (amended, witness): the selection characterization, instantiated at a
two-transformation list whose first entry does not bridge. -/
theorem c1_bridge_selection_witness :
    ∃ pre post i o,
      ([⟨some "X", some "Y", none, none⟩,
        ⟨some "A", some "T", some "scale", some [2, 2, 2]⟩] : List CTrans) =
        pre ++ (⟨some "A", some "T", some "scale", some [2, 2, 2]⟩ : CTrans) :: post ∧
      (∀ tr' ∈ pre, bridges (getCsNames [⟨some "A"⟩]) (getCsNames [⟨some "T"⟩]) tr' = false) ∧
      (⟨some "A", some "T", some "scale", some [2, 2, 2]⟩ : CTrans).input = some i ∧
      (⟨some "A", some "T", some "scale", some [2, 2, 2]⟩ : CTrans).output = some o ∧
      i ≠ "" ∧ o ≠ "" ∧
      ((i ∈ getCsNames [(⟨some "T"⟩ : CoordinateSystem)] ∧
        o ∈ getCsNames [(⟨some "A"⟩ : CoordinateSystem)]) ∨
       (i ∈ getCsNames [(⟨some "A"⟩ : CoordinateSystem)] ∧
        o ∈ getCsNames [(⟨some "T"⟩ : CoordinateSystem)])) ∧
      "A" = (if i ∈ getCsNames [(⟨some "T"⟩ : CoordinateSystem)] then o else i) :=
  (c1_bridge_selection
    [⟨some "X", some "Y", none, none⟩,
     ⟨some "A", some "T", some "scale", some [2, 2, 2]⟩]
    [⟨some "A"⟩] [⟨some "T"⟩]
    ⟨some "A", some "T", some "scale", some [2, 2, 2]⟩ "A").mp rfl

/-- C3 (counterexample): annotation and tomogram share only the frame
`"physical"`, whose name does not contain `'voxel'`, and the tomogram declares no
transformations at all, so no scale transformation with `output == "physical"`
exists; yet the full validation returns success instead of failing. -/
theorem c3_counterexample :
    validateWithTomogram
        ⟨some [((1 : ℚ), 2, 3)], some [⟨some "physical"⟩], some []⟩
        ⟨some 10, some 10, some 10, some [⟨some "physical"⟩], none⟩ =
      .ok ⟨some [((1 : ℚ), 2, 3)], some [⟨some "physical"⟩], some []⟩ ∧
    containsVoxel "physical" = false :=
  ⟨rfl, rfl⟩

/-- C3 (amended): when the resolved target frame is not voxel-indexed and the
tomogram has no transformation with `output` equal to the target and a `scale`
field, the bounds stage silently skips the bounds check and succeeds, rather
than failing. -/
theorem c3_skip_on_undetermined_bounds (a : Anno) (t : Tomo) (target : String)
    (tcoords : List Point3)
    (hphys : containsVoxel target = false)
    (hnone : (t.coordinate_transformations.getD []).find?
        (fun tr => tr.output == some target && tr.scale.isSome) = none) :
    boundsStage a t target tcoords = .ok a := by
  simp [boundsStage, hphys, hnone]

/-- C3 (witness): the amended behavior at the counterexample's input. -/
theorem c3_skip_on_undetermined_bounds_witness :
    boundsStage ⟨some [((1 : ℚ), 2, 3)], some [⟨some "physical"⟩], some []⟩
        ⟨some 10, some 10, some 10, some [⟨some "physical"⟩], none⟩
        "physical" [((1 : ℚ), 2, 3)] =
      .ok ⟨some [((1 : ℚ), 2, 3)], some [⟨some "physical"⟩], some []⟩ :=
  c3_skip_on_undetermined_bounds _ _ "physical" _ rfl rfl

/-- The test `subAtHead sub s` decides whether `sub` is an initial segment of `s`. -/
theorem subAtHead_iff (sub s : List Char) :
    subAtHead sub s = true ↔ ∃ r, s = sub ++ r := by
  induction sub generalizing s with
  | nil => simp [subAtHead]
  | cons c cs ih =>
    cases s with
    | nil => simp [subAtHead]
    | cons b bs =>
      rw [subAtHead]
      simp only [Bool.and_eq_true, beq_iff_eq, ih, List.cons_append, List.cons.injEq]
      constructor
      · rintro ⟨rfl, r, rfl⟩
        exact ⟨r, rfl, rfl⟩
      · rintro ⟨r, rfl, rfl⟩
        exact ⟨rfl, r, rfl⟩

/-- The test `containsSub s sub` decides whether `sub` occurs contiguously inside `s`. -/
theorem containsSub_iff (s sub : List Char) :
    containsSub s sub = true ↔ ∃ pre post, s = pre ++ sub ++ post := by
  induction s with
  | nil =>
    simp only [containsSub, List.isEmpty_iff]
    constructor
    · rintro rfl
      exact ⟨[], [], rfl⟩
    · rintro ⟨pre, post, h⟩
      rcases List.append_eq_nil.mp (List.append_eq_nil.mp h.symm).1 with ⟨_, h2⟩
      exact h2
  | cons c rest ih =>
    rw [containsSub]
    simp only [Bool.or_eq_true, subAtHead_iff, ih]
    constructor
    · rintro (⟨r, hr⟩ | ⟨pre, post, hpp⟩)
      · exact ⟨[], r, by simpa using hr⟩
      · exact ⟨c :: pre, post, by simp [hpp]⟩
    · rintro ⟨pre, post, hpp⟩
      cases pre with
      | nil => exact .inl ⟨post, by simpa using hpp⟩
      | cons d pre' =>
        obtain ⟨rfl, h2⟩ : c = d ∧ rest = pre' ++ sub ++ post := by simpa using hpp
        exact .inr ⟨pre', post, h2⟩

/-- C10: the bounds-regime dispatch is by case-insensitive substring match on the
target frame name: `'voxel'` occurring in the lowercased name selects the raw
integer dimensions as bounds (skipping the check only when a dimension is falsy),
while any other name takes the physical route, which requires a tomogram
transformation with `output` equal to the target name and a `scale` field, and
skips the check when none exists. -/
theorem c10_voxel_dispatch (a : Anno) (t : Tomo) (target : String)
    (tcoords : List Point3) :
    (containsVoxel target = true ↔
      ∃ pre post, target.data.map Char.toLower = pre ++ "voxel".data ++ post) ∧
    (containsVoxel target = true → dimsAllTruthy t = true →
      boundsStage a t target tcoords =
        finishBounds a tcoords
          ((0, dimQ t.width), (0, dimQ t.height), (0, dimQ t.depth))) ∧
    (containsVoxel target = true → dimsAllTruthy t = false →
      boundsStage a t target tcoords = .ok a) ∧
    (containsVoxel target = false →
      (t.coordinate_transformations.getD []).find?
          (fun tr => tr.output == some target && tr.scale.isSome) = none →
      boundsStage a t target tcoords = .ok a) ∧
    (∀ tr s0 s1 s2, containsVoxel target = false →
      (t.coordinate_transformations.getD []).find?
          (fun tr => tr.output == some target && tr.scale.isSome) = some tr →
      tr.scale = some [s0, s1, s2] → dimsAllTruthy t = true →
      boundsStage a t target tcoords =
        finishBounds a tcoords
          ((0, dimQ t.width * s0), (0, dimQ t.height * s1), (0, dimQ t.depth * s2))) := by
  refine ⟨containsSub_iff _ _, ?_, ?_, ?_, ?_⟩
  · intro hvox hdims
    simp [boundsStage, hvox, hdims]
  · intro hvox hdims
    simp [boundsStage, hvox, hdims]
  · intro hvox hnone
    simp [boundsStage, hvox, hnone]
  · intro tr s0 s1 s2 hvox hfind hscale hdims
    simp [boundsStage, hvox, hfind, hscale, hdims]

/-- C10 (witness): a voxel-named frame uses the raw dimensions; a physical frame
with a matching scale transformation uses the scaled dimensions. -/
theorem c10_voxel_dispatch_witness :
    boundsStage ⟨none, none, none⟩
        ⟨some 10, some 20, some 30, some [⟨some "voxel_cs"⟩], none⟩
        "Voxel_CS" [((1 : ℚ), 2, 3)] =
      finishBounds ⟨none, none, none⟩ [((1 : ℚ), 2, 3)]
        ((0, dimQ (some 10)), (0, dimQ (some 20)), (0, dimQ (some 30))) ∧
    boundsStage ⟨none, none, none⟩
        ⟨some 10, some 20, some 30, some [⟨some "physical"⟩],
          some [⟨some "voxel_cs", some "physical", some "scale", some [2, 2, 2]⟩]⟩
        "physical" [((1 : ℚ), 2, 3)] =
      finishBounds ⟨none, none, none⟩ [((1 : ℚ), 2, 3)]
        ((0, dimQ (some 10) * 2), (0, dimQ (some 20) * 2), (0, dimQ (some 30) * 2)) :=
  ⟨(c10_voxel_dispatch ⟨none, none, none⟩
      ⟨some 10, some 20, some 30, some [⟨some "voxel_cs"⟩], none⟩
      "Voxel_CS" [((1 : ℚ), 2, 3)]).2.1 (by decide) rfl,
   (c10_voxel_dispatch ⟨none, none, none⟩
      ⟨some 10, some 20, some 30, some [⟨some "physical"⟩],
        some [⟨some "voxel_cs", some "physical", some "scale", some [2, 2, 2]⟩]⟩
      "physical" [((1 : ℚ), 2, 3)]).2.2.2.2
      ⟨some "voxel_cs", some "physical", some "scale", some [2, 2, 2]⟩ 2 2 2
      (by decide) rfl rfl rfl⟩

/-- When every coordinate system carries a name, the thumbnail name-set
computation succeeds and agrees with the validator's. -/
theorem dGetCsNames_eq :
    ∀ (l : List CoordinateSystem), (∀ cs ∈ l, cs.name ≠ none) →
      dGetCsNames l = .ok (getCsNames l)
  | [], _ => rfl
  | cs :: rest, h => by
    obtain ⟨n, hn⟩ : ∃ n, cs.name = some n := by
      cases hcn : cs.name with
      | none => exact absurd hcn (h cs (by simp))
      | some m => exact ⟨m, rfl⟩
    have hrest := dGetCsNames_eq rest (fun c hc => h c (by simp [hc]))
    simp only [dGetCsNames, hn, hrest]
    simp only [getCsNames, List.filterMap_cons, hn]
    by_cases hmem : n ∈ rest.filterMap (·.name)
    · rw [List.dedup_cons_of_mem hmem]
      rw [if_pos (show n ∈ (rest.filterMap (·.name)).dedup from List.mem_dedup.mpr hmem)]
    · rw [List.dedup_cons_of_not_mem hmem,
        if_neg (fun hc => hmem (List.mem_dedup.mp hc))]

/-- When every transformation has nonempty `input` and `output`, the thumbnail
bridging loop succeeds and fails exactly as the validator's, selecting the same
transformation. -/
theorem tFindBridge_eq (a t : List String) :
    ∀ (l : List CTrans),
      (∀ tr ∈ l, ∃ i o, tr.input = some i ∧ tr.output = some o ∧ i ≠ "" ∧ o ≠ "") →
      tFindBridge a t l = Except.map Prod.fst (findBridge a t l)
  | [], _ => rfl
  | hd :: rest, h => by
    obtain ⟨i, o, hi, ho, hine, hone⟩ := h hd (by simp)
    have hrest := tFindBridge_eq a t rest (fun tr htr => h tr (by simp [htr]))
    have hfalsy : ¬(i = "" ∨ o = "") := by simp [hine, hone]
    simp only [tFindBridge, findBridge, hi, ho, if_neg hfalsy]
    by_cases hst : (i ∈ t ∧ o ∈ a) ∨ (i ∈ a ∧ o ∈ t)
    · rw [if_pos hst, if_pos hst]
      rfl
    · rw [if_neg hst, if_neg hst]
      exact hrest

/-- When the transformation carries a `transformation_type`, the two apply
functions agree (the validator's `hasattr` fallback is never consulted). -/
theorem tApplyCoordTrans_eq (coords : List Point3) (tr : CTrans)
    (h : tr.transformation_type ≠ none) :
    tApplyCoordTrans coords tr = applyCoordTrans coords tr := by
  cases hty : tr.transformation_type with
  | none => exact absurd hty h
  | some ty => simp only [tApplyCoordTrans, applyCoordTrans, hty]

/-- A transformation selected by the loop is one of the scanned transformations. -/
theorem findBridge_ok_mem {a t : List String} {l : List CTrans} {tr : CTrans}
    {target : String} (h : findBridge a t l = .ok (tr, target)) : tr ∈ l := by
  obtain ⟨pre, post, heq, -, -, -⟩ := (findBridge_ok_iff a t l tr target).mp h
  subst heq
  simp

/-- C9 (counterexample): a record whose coordinate systems all have names and
whose single transformation has both `input` and `output` fields (but no
`transformation_type`): the validator revision succeeds via its `hasattr`
fallback while the thumbnail revision fails on the missing key, so the two
revisions do not succeed on the same inputs. -/
theorem c9_counterexample :
    getTransformedCoordinates [((1 : ℚ), 2, 3)]
        [⟨some "A", some "T", none, some [2, 2, 2]⟩] [⟨some "A"⟩] [⟨some "T"⟩] =
      .ok ([((2 : ℚ), 4, 6)], "A") ∧
    tGetTransformed
        ⟨some [((1 : ℚ), 2, 3)], some [⟨some "A"⟩],
          some [⟨some "A", some "T", none, some [2, 2, 2]⟩]⟩
        ⟨some 10, some 10, some 10, some [⟨some "T"⟩], none⟩ =
      .error (.fieldMissing "transformation_type") := by
  constructor
  · simp [getTransformedCoordinates, checkCsWithTrans, findBridge, applyCoordTrans,
      scaleCoords, getCsNames]
    norm_num
  · rfl

/-- C9 (amended): on records with nonempty points and coordinate-system lists,
all coordinate systems named, and every transformation carrying a
`transformation_type` field and nonempty `input`/`output` strings, the two
revisions of the reconciliation succeed and fail identically, select the same
bridging transformation, and produce elementwise-equal coordinates (the
thumbnail result is the first component of the validator result). -/
theorem c9_agreement (a : Anno) (t : Tomo)
    (hco : (a.origin3D.getD []).isEmpty = false)
    (hacs : ((a.coordinate_systems.getD [] : List CoordinateSystem)).isEmpty = false)
    (htcs : ((t.coordinate_systems.getD [] : List CoordinateSystem)).isEmpty = false)
    (hnames : ∀ cs ∈ a.coordinate_systems.getD [] ++ t.coordinate_systems.getD [],
      cs.name ≠ none)
    (hends : ∀ tr ∈ a.coordinate_transformations.getD [],
      ∃ i o, tr.input = some i ∧ tr.output = some o ∧ i ≠ "" ∧ o ≠ "")
    (htyp : ∀ tr ∈ a.coordinate_transformations.getD [],
      tr.transformation_type ≠ none) :
    tGetTransformed a t =
      Except.map Prod.fst
        (getTransformedCoordinates (a.origin3D.getD [])
          (a.coordinate_transformations.getD [])
          (a.coordinate_systems.getD []) (t.coordinate_systems.getD [])) ∧
    tCheckCsWithTrans (a.coordinate_transformations.getD [])
        (a.coordinate_systems.getD []) (t.coordinate_systems.getD []) =
      Except.map Prod.fst
        (checkCsWithTrans (a.coordinate_transformations.getD [])
          (a.coordinate_systems.getD []) (t.coordinate_systems.getD [])) := by
  have hA := dGetCsNames_eq (a.coordinate_systems.getD [])
    (fun cs hc => hnames cs (List.mem_append_left _ hc))
  have hT := dGetCsNames_eq (t.coordinate_systems.getD [])
    (fun cs hc => hnames cs (List.mem_append_right _ hc))
  have hsel : tCheckCsWithTrans (a.coordinate_transformations.getD [])
      (a.coordinate_systems.getD []) (t.coordinate_systems.getD []) =
      Except.map Prod.fst
        (checkCsWithTrans (a.coordinate_transformations.getD [])
          (a.coordinate_systems.getD []) (t.coordinate_systems.getD [])) := by
    simp only [tCheckCsWithTrans, hA, hT, checkCsWithTrans]
    exact tFindBridge_eq _ _ _ hends
  refine ⟨?_, hsel⟩
  simp only [tGetTransformed, getTransformedCoordinates, hco, hacs, htcs,
    Bool.or_self, Bool.false_eq_true, if_false]
  by_cases htr : (a.coordinate_transformations.getD []).isEmpty
  · simp only [htr, if_true]
    simp only [tCheckCsWithoutTrans, hA, hT, checkCsWithoutTrans, commonCsNames]
    cases hc : getCsNames (a.coordinate_systems.getD []) ∩
        getCsNames (t.coordinate_systems.getD []) with
    | nil => simp [Except.map]
    | cons x l' =>
      cases l' with
      | nil => simp [Except.map]
      | cons y l'' => simp [Except.map]
  · simp only [htr, if_false]
    rw [hsel]
    cases hchk : checkCsWithTrans (a.coordinate_transformations.getD [])
        (a.coordinate_systems.getD []) (t.coordinate_systems.getD []) with
    | error e => simp [Except.map]
    | ok p =>
      obtain ⟨tr, tgt⟩ := p
      have hmem : tr ∈ a.coordinate_transformations.getD [] :=
        findBridge_ok_mem (show findBridge _ _ _ = .ok (tr, tgt) from hchk)
      simp only [Except.map]
      rw [tApplyCoordTrans_eq _ _ (htyp tr hmem)]
      cases happ : applyCoordTrans (a.origin3D.getD []) tr with
      | error e => simp [Except.map]
      | ok nc => simp [Except.map]

/-- C9 (witness): the amended agreement at a concrete record pair that exercises
the transformation branch. -/
theorem c9_agreement_witness :
    (tGetTransformed
        ⟨some [((1 : ℚ), 2, 3)], some [⟨some "A"⟩],
          some [⟨some "A", some "T", some "scale", some [2, 2, 2]⟩]⟩
        ⟨some 10, some 10, some 10, some [⟨some "T"⟩], none⟩ =
      Except.map Prod.fst
        (getTransformedCoordinates [((1 : ℚ), 2, 3)]
          [⟨some "A", some "T", some "scale", some [2, 2, 2]⟩]
          [⟨some "A"⟩] [⟨some "T"⟩])) ∧
    tCheckCsWithTrans [⟨some "A", some "T", some "scale", some [2, 2, 2]⟩]
        [⟨some "A"⟩] [⟨some "T"⟩] =
      Except.map Prod.fst
        (checkCsWithTrans [⟨some "A", some "T", some "scale", some [2, 2, 2]⟩]
          [⟨some "A"⟩] [⟨some "T"⟩]) :=
  c9_agreement
    ⟨some [((1 : ℚ), 2, 3)], some [⟨some "A"⟩],
      some [⟨some "A", some "T", some "scale", some [2, 2, 2]⟩]⟩
    ⟨some 10, some 10, some 10, some [⟨some "T"⟩], none⟩
    rfl rfl rfl (by decide)
    (by
      intro tr htr
      have h1 : tr = ⟨some "A", some "T", some "scale", some [2, 2, 2]⟩ := by
        simpa using htr
      subst h1
      exact ⟨"A", "T", rfl, rfl, by decide, by decide⟩)
    (by decide)

end CetsEmpiar
